import Mathlib

/-!
Verification of the metrics-aggregation core of the Stealth_Dash analytics
dashboard (`src/app.py`).  The dashboard reads per-user, per-day, per-session
productivity records from a document store and derives totals, rates and
rollups for its pages (Overview, User Analysis, Session Details,
Trends & Patterns, App & URL Analysis).

The shallow embedding below mirrors the record structures and the aggregation
loops of `app.py`.  Python dictionaries with possibly-missing keys become Lean
structures with `Option` fields (`.get(k, d)` becomes `Option.getD`), Python
exceptions become `Option`-valued results (`none` models a raised exception
escaping the computation), `defaultdict` accumulators become total functions
or association lists, and numeric time values become `Int` (ratios become
`ℚ`).
-/

/-! ## Data model (app.py / MongoDB record shapes, §3 of the spec) -/

/-- One `{total_time, visits}` record inside a `usage_breakdown` category. -/
structure AppData where
  total_time : Option Int
  visits : Option (List String)
deriving DecidableEq, Repr

/-- A session record.  Every field may be absent in the stored document. -/
structure Session where
  session_id : Option String
  start_time : Option String
  end_time : Option String
  total_time : Option Int
  productive_time : Option Int
  wasted_time : Option Int
  idle_time : Option Int
  neutral_time : Option Int
  session_shift : Option String
  usage_breakdown : Option (List (String × List (String × AppData)))
deriving DecidableEq, Repr

/-- A per-day entry of a user document: a date string and its sessions. -/
structure DateEntry where
  date : Option String
  sessions : Option (List Session)
deriving DecidableEq, Repr

/-- A user document from the `users` collection. -/
structure UserDoc where
  username : String
  dates : Option (List DateEntry)
deriving DecidableEq, Repr

/-- The `date_entry.get("sessions", [])` access pattern (app.py line 360 etc.). -/
def sessionsOf (e : DateEntry) : List Session :=
  e.sessions.getD []

/-! ## Calendar dates and `datetime.strptime` parsing -/

/-- A parsed calendar date, as produced by
`datetime.strptime(s, "%Y-%m-%d").date()`. -/
structure CalDate where
  year : Nat
  month : Nat
  day : Nat
deriving DecidableEq, Repr

def isLeapYear (y : Nat) : Bool :=
  (y % 4 == 0 && y % 100 != 0) || y % 400 == 0

def daysInMonth (y m : Nat) : Nat :=
  if m = 2 then (if isLeapYear y then 29 else 28)
  else if m = 4 ∨ m = 6 ∨ m = 9 ∨ m = 11 then 30
  else 31

/-- Split a character list at every occurrence of the separator `c`
(the behaviour of Python `str.split` with a one-character separator,
used here to model the fixed-separator patterns of `strptime`). -/
def splitOnChar (c : Char) : List Char → List (List Char)
  | [] => [[]]
  | x :: xs =>
    let r := splitOnChar c xs
    if x = c then [] :: r
    else
      match r with
      | [] => [[x]]
      | hd :: tl => (x :: hd) :: tl

/-- A nonempty all-digit component, as matched by the `\d` groups of
`_strptime`. -/
def isDigits (cs : List Char) : Bool :=
  cs.length > 0 && cs.all (fun c => c.isDigit)

/-- Numeric value of a digit component. -/
def natOfDigits (cs : List Char) : Nat :=
  cs.foldl (fun n c => n * 10 + (c.toNat - 48)) 0

/-- Parsing `datetime.strptime(s, "%Y-%m-%d").date()`: `%Y` is exactly four digits,
`%m` and `%d` are one or two digits; the `datetime` constructor then requires
`1 <= year`, `1 <= month <= 12` and a day valid for the month.  `none` models
the raised `ValueError` / `KeyError` family of parse failures. -/
def parseDate (s : String) : Option CalDate :=
  match splitOnChar '-' s.data with
  | [ys, ms, ds] =>
    if isDigits ys ∧ ys.length = 4 ∧ isDigits ms ∧ ms.length ≤ 2
        ∧ isDigits ds ∧ ds.length ≤ 2 then
      let y := natOfDigits ys
      let m := natOfDigits ms
      let d := natOfDigits ds
      if 1 ≤ y ∧ 1 ≤ m ∧ m ≤ 12 ∧ 1 ≤ d ∧ d ≤ daysInMonth y m then
        some ⟨y, m, d⟩
      else none
    else none
  | _ => none

/-- Python `date` comparison: lexicographic on (year, month, day). -/
def dateLe (a b : CalDate) : Bool :=
  if a.year ≠ b.year then decide (a.year < b.year)
  else if a.month ≠ b.month then decide (a.month < b.month)
  else decide (a.day ≤ b.day)

/-- Parsing `datetime.strptime(s, "%H:%M:%S").hour`: each component is one or two
digits with `hour <= 23`, `minute <= 59`, `second <= 59`; only the hour is
used by the dashboard.  `none` models the raised `ValueError`. -/
def parseTimeHour (s : String) : Option Nat :=
  match splitOnChar ':' s.data with
  | [hs, ms, ss] =>
    if isDigits hs ∧ hs.length ≤ 2 ∧ isDigits ms ∧ ms.length ≤ 2
        ∧ isDigits ss ∧ ss.length ≤ 2 then
      let h := natOfDigits hs
      let mi := natOfDigits ms
      let se := natOfDigits ss
      if h ≤ 23 ∧ mi ≤ 59 ∧ se ≤ 59 then some h else none
    else none
  | _ => none

/-- Days before year `y` plus days before month `m` plus the day: Python's
`date.toordinal` (proleptic Gregorian, ordinal 1 = 0001-01-01). -/
def daysBeforeMonth (y m : Nat) : Nat :=
  (List.range (m - 1)).foldl (fun acc i => acc + daysInMonth y (i + 1)) 0

def toOrdinal (d : CalDate) : Nat :=
  365 * (d.year - 1) + (d.year - 1) / 4 - (d.year - 1) / 100
    + (d.year - 1) / 400 + daysBeforeMonth d.year d.month + d.day

/-- Weekday `date_obj.strftime("%A")` (app.py line 1124): the English weekday name;
ordinal 1 (0001-01-01) is a Monday. -/
def weekdayName (d : CalDate) : String :=
  match (toOrdinal d - 1) % 7 with
  | 0 => "Monday"
  | 1 => "Tuesday"
  | 2 => "Wednesday"
  | 3 => "Thursday"
  | 4 => "Friday"
  | 5 => "Saturday"
  | _ => "Sunday"

/-! ## `get_date_range_data` (app.py lines 130-143) -/

/-- The loop body of `get_date_range_data`: for each date entry, index
`date_entry["date"]` (KeyError if absent → `none`), parse it (ValueError if
malformed → `none`), and append the entry when the parsed date lies in the
inclusive range. -/
def dateRangeGo (sd ed : CalDate) (acc : List DateEntry) :
    List DateEntry → Option (List DateEntry)
  | [] => some acc
  | e :: rest =>
    match e.date with
    | none => none
    | some s =>
      match parseDate s with
      | none => none
      | some dobj =>
        dateRangeGo sd ed
          (if dateLe sd dobj && dateLe dobj ed then acc ++ [e] else acc) rest

/-- The function `get_date_range_data(username, start_date, end_date)`: returns `[]` when
the user document is missing or has no `dates` field; otherwise filters the
date entries.  The outer `Option` is `none` exactly when the Python function
raises. -/
def get_date_range_data (sd ed : CalDate) (user_doc : Option UserDoc) :
    Option (List DateEntry) :=
  match user_doc with
  | none => some []
  | some doc =>
    match doc.dates with
    | none => some []
    | some ds => dateRangeGo sd ed [] ds

/-- The predicate an entry must satisfy to survive the date-range filter:
its date string is present, parses, and lies in `[sd, ed]`. -/
def inRange (sd ed : CalDate) (e : DateEntry) : Bool :=
  match e.date with
  | none => false
  | some s =>
    match parseDate s with
    | none => false
    | some d => dateLe sd d && dateLe d ed

/-! ## Productivity-rate computations -/

/-- Overview page rate (app.py lines 400-402):
`(total_productive / total_time * 100) if total_time > 0 else 0`. -/
def overviewProductivityRate (total_productive total_time : ℚ) : ℚ :=
  if total_time > 0 then total_productive / total_time * 100 else 0

/-- User Analysis per-day rate (app.py lines 673-675):
`(day_productive / day_total * 100) if day_total > 0 else 0`. -/
def userAnalysisDayRate (day_productive day_total : ℚ) : ℚ :=
  if day_total > 0 then day_productive / day_total * 100 else 0

/-- User Analysis overall rate (app.py line 680):
`(total_productive / total_time * 100) if total_time > 0 else 0`. -/
def userAnalysisTotalRate (total_productive total_time : ℚ) : ℚ :=
  if total_time > 0 then total_productive / total_time * 100 else 0

/-- The spec's productivity-rate contract (§4.1 / §8 of spec.md):
`productive / total * 100` when `total > 0`, else `0`.  Stated from the
spec's words, for comparison with the code's rate computations. -/
def specProductivityRate (productive total : ℚ) : ℚ :=
  if total > 0 then productive / total * 100 else 0

/-- Session Details productivity metric (app.py lines 917-919):
`prod_time = session.get("productive_time", 0)`,
`total_time = session.get("total_time", 1)`, then
`prod_time / total_time * 100` with no zero guard.  `none` models the
`ZeroDivisionError` raised when the stored `total_time` equals 0. -/
def sessionDetailsProductivity (s : Session) : Option ℚ :=
  let prod_time : Int := s.productive_time.getD 0
  let total_time : Int := s.total_time.getD 1
  if total_time = 0 then none
  else some ((prod_time : ℚ) / (total_time : ℚ) * 100)

/-! ## Overview page per-user aggregation (app.py lines 349-391) -/

/-- Accumulator of the Overview per-user loop: the four category totals and
the session count. -/
structure UserTotals where
  productive : Int
  wasted : Int
  idle : Int
  neutral : Int
  sessions : Nat
deriving DecidableEq, Repr

/-- One row of the Overview `user_stats` list (app.py lines 375-385). -/
structure UserRow where
  username : String
  sessions : Nat
  productive : Int
  wasted : Int
  idle : Int
  neutral : Int
  total : Int
deriving DecidableEq, Repr

/-- The body of the Overview session loop (app.py lines 361-367): add
`session.get(category + "_time", 0)` to the running totals and count the
session. -/
def overviewSessionStep (t : UserTotals) (s : Session) : UserTotals :=
  ⟨t.productive + s.productive_time.getD 0,
   t.wasted + s.wasted_time.getD 0,
   t.idle + s.idle_time.getD 0,
   t.neutral + s.neutral_time.getD 0,
   t.sessions + 1⟩

/-- The nested loop of app.py lines 359-367: for each date entry, for each
session of `date_entry.get("sessions", [])`, run the session step. -/
def overviewUserTotals (dates : List DateEntry) : UserTotals :=
  dates.foldl (fun t e => (sessionsOf e).foldl overviewSessionStep t)
    ⟨0, 0, 0, 0, 0⟩

/-- The row appended for a user (app.py lines 375-385):
`total = productive + wasted + idle + neutral` (line 383). -/
def mkUserRow (username : String) (t : UserTotals) : UserRow :=
  ⟨username, t.sessions, t.productive, t.wasted, t.idle, t.neutral,
   t.productive + t.wasted + t.idle + t.neutral⟩

/-- The Overview `user_stats` accumulation (app.py lines 349-385): one row is
appended per user, only when `user_sessions > 0` (line 374).  The input pairs
each username with its already-date-filtered date entries. -/
def overviewUserStats (users : List (String × List DateEntry)) : List UserRow :=
  users.foldl
    (fun acc u =>
      let t := overviewUserTotals u.2
      if t.sessions > 0 then acc ++ [mkUserRow u.1 t] else acc)
    []

/-- All sessions of a list of date entries, in traversal order. -/
def allSessions : List DateEntry → List Session
  | [] => []
  | e :: rest => sessionsOf e ++ allSessions rest

/-- Independent per-category sums over a session list (the spec's
`sum(productive)` etc., §8 of spec.md), for comparison with the loop. -/
def sumProd (ss : List Session) : Int :=
  (ss.map (fun s => s.productive_time.getD 0)).sum

def sumWasted (ss : List Session) : Int :=
  (ss.map (fun s => s.wasted_time.getD 0)).sum

def sumIdle (ss : List Session) : Int :=
  (ss.map (fun s => s.idle_time.getD 0)).sum

def sumNeutral (ss : List Session) : Int :=
  (ss.map (fun s => s.neutral_time.getD 0)).sum

/-! ## Trends & Patterns aggregation (app.py lines 1113-1168) -/

/-- One `hourly_data[hour]` bucket: four category totals plus a session
count (app.py lines 1113-1115, 1137-1141). -/
structure Bucket5 where
  productive : Int
  wasted : Int
  idle : Int
  neutral : Int
  count : Nat
deriving DecidableEq, Repr

def b5zero : Bucket5 := ⟨0, 0, 0, 0, 0⟩

def b5add (a b : Bucket5) : Bucket5 :=
  ⟨a.productive + b.productive, a.wasted + b.wasted, a.idle + b.idle,
   a.neutral + b.neutral, a.count + b.count⟩

/-- The contribution of one session to its hour bucket. -/
def sessB5 (s : Session) : Bucket5 :=
  ⟨s.productive_time.getD 0, s.wasted_time.getD 0, s.idle_time.getD 0,
   s.neutral_time.getD 0, 1⟩

/-- One `weekly_data[weekday]` bucket (app.py lines 1117-1119). -/
structure Bucket4 where
  productive : Int
  wasted : Int
  idle : Int
  neutral : Int
deriving DecidableEq, Repr

def b4zero : Bucket4 := ⟨0, 0, 0, 0⟩

def b4add (a b : Bucket4) : Bucket4 :=
  ⟨a.productive + b.productive, a.wasted + b.wasted, a.idle + b.idle,
   a.neutral + b.neutral⟩

def sessB4 (s : Session) : Bucket4 :=
  ⟨s.productive_time.getD 0, s.wasted_time.getD 0, s.idle_time.getD 0,
   s.neutral_time.getD 0⟩

/-- The hour of a session as computed inside the Trends `try` block
(app.py lines 1133-1135): `session["start_time"]` (KeyError when absent)
then `strptime("%H:%M:%S").hour` (ValueError when malformed); both failure
modes are caught by the bare `except`, so both are `none` here. -/
def hourOf (s : Session) : Option Nat :=
  match s.start_time with
  | none => none
  | some t => parseTimeHour t

/-- State threaded through the Trends session loop (app.py lines 1131-1155):
the hourly `defaultdict`, the four per-day accumulators, and the weekday
`defaultdict`. -/
structure SessState where
  hourly : Nat → Bucket5
  dayP : Int
  dayW : Int
  dayI : Int
  dayN : Int
  weekly : String → Bucket4

/-- The body of the Trends session loop (app.py lines 1131-1155) for a fixed
weekday: the hourly bucket update happens only when `start_time` indexes and
parses (the `try` block); the daily and weekly sums always happen. -/
def sessionStep (w : String) (st : SessState) (s : Session) : SessState :=
  let st1 : SessState :=
    match hourOf s with
    | some h =>
      { st with
        hourly := fun h2 =>
          if h2 = h then b5add (st.hourly h2) (sessB5 s) else st.hourly h2 }
    | none => st
  { st1 with
    dayP := st1.dayP + s.productive_time.getD 0,
    dayW := st1.dayW + s.wasted_time.getD 0,
    dayI := st1.dayI + s.idle_time.getD 0,
    dayN := st1.dayN + s.neutral_time.getD 0,
    weekly := fun w2 =>
      if w2 = w then b4add (st1.weekly w2) (sessB4 s) else st1.weekly w2 }

/-- One row of the Trends `daily_data` list (app.py lines 1157-1168). -/
structure DailyRow where
  date : String
  weekday : String
  productive : Int
  wasted : Int
  idle : Int
  neutral : Int
  total : Int
deriving DecidableEq, Repr

/-- The cross-entry state of the Trends aggregation. -/
structure TrendsAcc where
  hourly : Nat → Bucket5
  weekly : String → Bucket4
  daily : List DailyRow

def trendsInit : TrendsAcc :=
  ⟨fun _ => b5zero, fun _ => b4zero, []⟩

/-- The body of the Trends date-entry loop (app.py lines 1121-1168):
`date_entry["date"]` (KeyError → `none`) is parsed with
`strptime("%Y-%m-%d")` (ValueError → `none`, neither is caught), the weekday
name is derived, the session loop runs, and a daily row with
`total = productive + wasted + idle + neutral` (line 1157) is appended. -/
def trendsEntryStep (acc : TrendsAcc) (e : DateEntry) : Option TrendsAcc :=
  match e.date with
  | none => none
  | some ds =>
    match parseDate ds with
    | none => none
    | some dobj =>
      let w := weekdayName dobj
      let st0 : SessState := ⟨acc.hourly, 0, 0, 0, 0, acc.weekly⟩
      let st := (sessionsOf e).foldl (sessionStep w) st0
      some ⟨st.hourly, st.weekly,
        acc.daily ++
          [⟨ds, w, st.dayP, st.dayW, st.dayI, st.dayN,
            st.dayP + st.dayW + st.dayI + st.dayN⟩]⟩

def trendsGo (acc : TrendsAcc) : List DateEntry → Option TrendsAcc
  | [] => some acc
  | e :: rest =>
    match trendsEntryStep acc e with
    | none => none
    | some acc2 => trendsGo acc2 rest

/-- The whole Trends aggregation pass over the filtered date entries
(app.py lines 1113-1168). -/
def trendsAggregate (dates : List DateEntry) : Option TrendsAcc :=
  trendsGo trendsInit dates

/-- Reference bucket for hour `h`: the summed contributions of exactly those
sessions whose `start_time` indexes and parses to hour `h`. -/
def hourBucket (h : Nat) : List Session → Bucket5
  | [] => b5zero
  | s :: rest =>
    if hourOf s = some h then b5add (sessB5 s) (hourBucket h rest)
    else hourBucket h rest

/-! ## App & URL Analysis rollup (app.py lines 1415-1455) -/

/-- One `app_usage[app_name]` accumulator: the plain dict literal
`{"productive": 0, "wasted": 0, "idle": 0, "neutral": 0, "visits": 0}`
produced by the `defaultdict` factory (app.py lines 1416-1418). -/
structure AppAcc where
  productive : Int
  wasted : Int
  idle : Int
  neutral : Int
  visits : Int
deriving DecidableEq, Repr

def appAccZero : AppAcc := ⟨0, 0, 0, 0, 0⟩

/-- The update `app_usage[app_name][category] += t` (app.py line 1426): the inner dict
has exactly the five keys above, so a category outside them raises
`KeyError` — modelled by `none`. -/
def appAccAddCat (a : AppAcc) (category : String) (t : Int) : Option AppAcc :=
  if category = "productive" then some { a with productive := a.productive + t }
  else if category = "wasted" then some { a with wasted := a.wasted + t }
  else if category = "idle" then some { a with idle := a.idle + t }
  else if category = "neutral" then some { a with neutral := a.neutral + t }
  else if category = "visits" then some { a with visits := a.visits + t }
  else none

/-- The `app_usage` defaultdict as an insertion-ordered association list:
update the entry for `name`, creating it from the zero accumulator when
absent; `none` propagates a failed field update. -/
def updateApp (name : String) (f : AppAcc → Option AppAcc) :
    List (String × AppAcc) → Option (List (String × AppAcc))
  | [] => (f appAccZero).map (fun a => [(name, a)])
  | (n, a) :: rest =>
    if n = name then (f a).map (fun a2 => (n, a2) :: rest)
    else (updateApp name f rest).map (fun r => (n, a) :: r)

/-- The count `len(app_data.get("visits", []))` (app.py line 1427). -/
def visitsLen (ad : AppData) : Int :=
  ((ad.visits.getD []).length : Int)

/-- The two statements of the innermost loop body (app.py lines 1426-1427)
for one `(category, app_name, app_data)` triple. -/
def appEntryStep (m : List (String × AppAcc)) (en : String × String × AppData) :
    Option (List (String × AppAcc)) :=
  match updateApp en.2.1
      (fun a => appAccAddCat a en.1 (en.2.2.total_time.getD 0)) m with
  | none => none
  | some m1 =>
    updateApp en.2.1
      (fun a => some { a with visits := a.visits + visitsLen en.2.2 }) m1

/-- The `(category, app_name, app_data)` triples of one session's
`usage_breakdown`, in the nesting order of app.py lines 1422-1425. -/
def breakdownEntries (s : Session) : List (String × String × AppData) :=
  (s.usage_breakdown.getD []).foldr
    (fun ci acc => (ci.2.map (fun na => (ci.1, na.1, na.2))) ++ acc) []

/-- All triples visited by the nested loops of app.py lines 1420-1427. -/
def appEntries : List DateEntry → List (String × String × AppData)
  | [] => []
  | e :: rest =>
    ((sessionsOf e).foldr (fun s acc => breakdownEntries s ++ acc) [])
      ++ appEntries rest

def appUsageGo (m : List (String × AppAcc)) :
    List (String × String × AppData) → Option (List (String × AppAcc))
  | [] => some m
  | en :: rest =>
    match appEntryStep m en with
    | none => none
    | some m2 => appUsageGo m2 rest

/-- The whole `app_usage` accumulation (app.py lines 1416-1427); `none` when
a `KeyError` aborts the page. -/
def appUsageRollup (dates : List DateEntry) : Option (List (String × AppAcc)) :=
  appUsageGo [] (appEntries dates)

/-- The key function `lambda k: data[k]` of app.py line 1438, restricted (as
in the source) to the four category keys. -/
def catVal (d : AppAcc) (c : String) : Int :=
  if c = "productive" then d.productive
  else if c = "wasted" then d.wasted
  else if c = "idle" then d.idle
  else d.neutral

/-- Python `max(iterable, key=f)`: the first element with maximal key; later
elements replace the current best only on a strictly greater key. -/
def maxByFirst (f : String → Int) (x : String) (xs : List String) : String :=
  xs.foldl (fun best c => if f c > f best then c else best) x

/-- The call `max(["productive", "wasted", "idle", "neutral"], key=lambda k: data[k])`
(app.py lines 1437-1439). -/
def primaryCategory (d : AppAcc) : String :=
  maxByFirst (catVal d) "productive" ["wasted", "idle", "neutral"]

/-- The spec's description of the primary category (§4.1 of spec.md): the
category among the four holding the largest accumulated time, ties broken by
the fixed traversal order `[productive, wasted, idle, neutral]`.  Stated from
the spec's words, for comparison with `primaryCategory`. -/
def specPrimaryCategory (d : AppAcc) : String :=
  if d.productive ≥ d.wasted ∧ d.productive ≥ d.idle ∧ d.productive ≥ d.neutral
    then "productive"
  else if d.wasted ≥ d.idle ∧ d.wasted ≥ d.neutral then "wasted"
  else if d.idle ≥ d.neutral then "idle"
  else "neutral"

/-- One row of the `usage_list` (app.py lines 1431-1452):
`total_time` is the sum of the four accumulated category times (lines
1432-1434), the category column is the capitalized primary category. -/
structure UsageRow where
  application : String
  category : String
  total_time : Int
  productive : Int
  wasted : Int
  idle : Int
  neutral : Int
  visits : Int
deriving DecidableEq, Repr

/-- Python `str.capitalize()`: first character uppercased, the rest
lowercased. -/
def pyCapitalize (s : String) : String :=
  match s.data with
  | [] => ⟨[]⟩
  | c :: cs => ⟨c.toUpper :: cs.map Char.toLower⟩

def usageRow (name : String) (d : AppAcc) : UsageRow :=
  ⟨name, pyCapitalize (primaryCategory d),
   d.productive + d.wasted + d.idle + d.neutral,
   d.productive, d.wasted, d.idle, d.neutral, d.visits⟩

def usageList (m : List (String × AppAcc)) : List UsageRow :=
  m.map (fun na => usageRow na.1 na.2)

/-- Lookup in the `app_usage` association list with the defaultdict's zero
default. -/
def lookupAcc (m : List (String × AppAcc)) (a : String) : AppAcc :=
  match m with
  | [] => appAccZero
  | (n, v) :: rest => if n = a then v else lookupAcc rest a

/-- Reference sum: total time recorded for application `a` under category
`c` across a triple list. -/
def catTimeSum (a c : String) : List (String × String × AppData) → Int
  | [] => 0
  | en :: rest =>
    (if en.2.1 = a ∧ en.1 = c then en.2.2.total_time.getD 0 else 0)
      + catTimeSum a c rest

/-- Reference sum: visit-list lengths recorded for application `a` across a
triple list (from every category key). -/
def visitsSum (a : String) : List (String × String × AppData) → Int
  | [] => 0
  | en :: rest =>
    (if en.2.1 = a then visitsLen en.2.2 else 0) + visitsSum a rest

/-! ## Heatmap (spec-modelled)

The heatmap page is not present in `src/app.py`; the spec documents it from
the repository's other dashboard variant.  The definitions below are
therefore modelled from the spec, not from source under `src/`. -/

/-- The `session.end_time` field parsed as the end hour, with failures swallowed. -/
def endHourOf (s : Session) : Option Nat :=
  match s.end_time with
  | none => none
  | some t => parseTimeHour t

/-- Modelled from the spec: the heatmap score of a session (§4.1 of spec.md),
`productive_time / total_time * 100` if `total_time > 0` else 0; the heatmap
page is missing from src/. -/
def heatmapScore (s : Session) : ℚ :=
  let p : ℚ := (s.productive_time.getD 0 : Int)
  let t : ℚ := (s.total_time.getD 0 : Int)
  if t > 0 then p / t * 100 else 0

/-- Modelled from the spec: the heatmap cell for hour `h` of one day
(§4.1 of spec.md); the heatmap page is missing from src/.  Each session whose
start and end hours parse and whose inclusive hour range covers `h` applies
its score via a maximum; sessions that fail to parse contribute nothing; the
cell starts at 0. -/
def heatmapCell (sessions : List Session) (h : Nat) : ℚ :=
  sessions.foldl
    (fun acc s =>
      match hourOf s, endHourOf s with
      | some sh, some eh =>
        if sh ≤ h ∧ h ≤ eh then max acc (heatmapScore s) else acc
      | _, _ => acc)
    0

/-! ## Helper lemmas -/

theorem b5add_zero (a : Bucket5) : b5add a b5zero = a := by
  simp [b5add, b5zero]

theorem b5zero_add (a : Bucket5) : b5add b5zero a = a := by
  simp [b5add, b5zero]

theorem b5add_assoc (a b c : Bucket5) :
    b5add (b5add a b) c = b5add a (b5add b c) := by
  simp [b5add, add_assoc]

theorem b4add_assoc (a b c : Bucket4) :
    b4add (b4add a b) c = b4add a (b4add b c) := by
  simp [b4add, add_assoc]

/-! ## C1: productivity-rate guard -/

/-- A session whose stored `total_time` is 0: reachable input for the
Session Details page. -/
def c1BadSession : Session :=
  ⟨some "s1", some "09:00:00", some "10:00:00", some 0, some 1800,
   some 0, some 0, some 0, none, none⟩

/-- C1 counterexample: the Session Details productivity metric (app.py lines
917-919) divides `productive_time` by `session.get("total_time", 1)` with no
zero guard, so a session whose stored `total_time` is 0 raises
`ZeroDivisionError` (modelled `none`) instead of yielding the guarded rate 0
that the claim requires for a zero total. -/
theorem C1_counterexample :
    sessionDetailsProductivity c1BadSession = none
    ∧ specProductivityRate 1800 0 = 0 := by
  constructor
  · rfl
  · simp [specProductivityRate]

/-- C1 (amended): the Overview rate (lines 400-402) and the User Analysis
per-day and overall rates (lines 673-675, 680) all equal the spec's guarded
rate; the Session Details metric (lines 917-919) does not use the guard: a
present `total_time` of 0 raises `ZeroDivisionError`, and an absent
`total_time` makes the metric `productive_time / 1 * 100`. -/
theorem C1_amended_rates (p t : ℚ) (s s2 : Session)
    (h0 : s.total_time = some 0) (hn : s2.total_time = none) :
    overviewProductivityRate p t = specProductivityRate p t
    ∧ userAnalysisDayRate p t = specProductivityRate p t
    ∧ userAnalysisTotalRate p t = specProductivityRate p t
    ∧ sessionDetailsProductivity s = none
    ∧ sessionDetailsProductivity s2
        = some (((s2.productive_time.getD 0 : Int) : ℚ) / 1 * 100) := by
  refine ⟨rfl, rfl, rfl, ?_, ?_⟩
  · simp [sessionDetailsProductivity, h0]
  · simp [sessionDetailsProductivity, hn]

/-- A session with `total_time` absent, for the C1 witness. -/
def c1NoTotalSession : Session :=
  ⟨some "s2", some "09:00:00", some "10:00:00", none, some 7,
   some 0, some 0, some 0, none, none⟩

/-- C1 witness: the amended theorem instantiated at concrete inputs. -/
theorem C1_witness :
    c1BadSession.total_time = some 0
    ∧ c1NoTotalSession.total_time = none
    ∧ (overviewProductivityRate 3 4 = specProductivityRate 3 4
        ∧ userAnalysisDayRate 3 4 = specProductivityRate 3 4
        ∧ userAnalysisTotalRate 3 4 = specProductivityRate 3 4
        ∧ sessionDetailsProductivity c1BadSession = none
        ∧ sessionDetailsProductivity c1NoTotalSession
            = some (((c1NoTotalSession.productive_time.getD 0 : Int) : ℚ)
                / 1 * 100)) :=
  ⟨rfl, rfl, C1_amended_rates 3 4 c1BadSession c1NoTotalSession rfl rfl⟩

/-! ## C4: primary-category selection -/

/-- C4: `max(["productive", "wasted", "idle", "neutral"], key=lambda k:
data[k])` (app.py lines 1437-1439) returns the category with the largest
accumulated time, ties broken by first position in the fixed traversal
order; in particular accumulated times `{productive: 10, wasted: 10,
idle: 0, neutral: 0}` yield `productive`. -/
theorem C4_primary_category (d : AppAcc) :
    primaryCategory d = specPrimaryCategory d
    ∧ primaryCategory ⟨10, 10, 0, 0, 0⟩ = "productive" := by
  refine ⟨?_, rfl⟩
  simp only [primaryCategory, maxByFirst, List.foldl, specPrimaryCategory]
  split_ifs <;> simp_all [catVal] <;> omega

/-! ## C3: heatmap cell is a maximum (spec-modelled) -/

theorem heatmapScore_nonneg (s : Session)
    (hp : 0 ≤ s.productive_time.getD 0) : 0 ≤ heatmapScore s := by
  simp only [heatmapScore]
  split_ifs with h
  · exact mul_nonneg (div_nonneg (by exact_mod_cast hp) (le_of_lt h))
      (by norm_num)
  · exact le_refl 0

/-- C3 (spec-modelled): for two sessions of the same day whose parsed hour
ranges both cover hour `h`, the heatmap cell at `h` is the maximum of their
two scores (each `productive_time / total_time * 100` when `total_time > 0`,
else 0), not their sum or average.  The heatmap page is absent from
`src/app.py`, so the cell computation is modelled from §4.1 of the spec. -/
theorem C3_heatmap_max (s1 s2 : Session) (h sh1 eh1 sh2 eh2 : Nat)
    (h1s : hourOf s1 = some sh1) (h1e : endHourOf s1 = some eh1)
    (hc1 : sh1 ≤ h ∧ h ≤ eh1)
    (h2s : hourOf s2 = some sh2) (h2e : endHourOf s2 = some eh2)
    (hc2 : sh2 ≤ h ∧ h ≤ eh2)
    (hp1 : 0 ≤ s1.productive_time.getD 0) :
    heatmapCell [s1, s2] h = max (heatmapScore s1) (heatmapScore s2) := by
  simp only [heatmapCell, List.foldl, h1s, h1e, h2s, h2e, hc1, hc2, if_pos,
    and_true, true_and]
  rw [max_eq_right (heatmapScore_nonneg s1 hp1)]

/-- First session of the C3 witness: 09:00-10:00, score 50. -/
def c3Sess1 : Session :=
  ⟨some "s1", some "09:00:00", some "10:00:00", some 3600, some 1800,
   some 900, some 450, some 450, none, none⟩

/-- Second session of the C3 witness: 09:30-11:00, score 25, overlapping
hour 9. -/
def c3Sess2 : Session :=
  ⟨some "s2", some "09:30:00", some "11:00:00", some 400, some 100,
   some 300, some 0, some 0, none, none⟩

/-- C3 witness: the theorem instantiated at two concrete overlapping
sessions; the shared hour 9 gets `max(50, 25) = 50`. -/
theorem C3_witness :
    hourOf c3Sess1 = some 9 ∧ endHourOf c3Sess1 = some 10
    ∧ hourOf c3Sess2 = some 9 ∧ endHourOf c3Sess2 = some 11
    ∧ 0 ≤ c3Sess1.productive_time.getD 0
    ∧ heatmapCell [c3Sess1, c3Sess2] 9
        = max (heatmapScore c3Sess1) (heatmapScore c3Sess2) :=
  ⟨by decide, by decide, by decide, by decide, by decide,
   C3_heatmap_max c3Sess1 c3Sess2 9 9 10 9 11 (by decide) (by decide)
     (by decide) (by decide) (by decide) (by decide) (by decide)⟩

/-! ## C5 / C7: Overview per-user aggregation -/

theorem sumProd_append (xs ys : List Session) :
    sumProd (xs ++ ys) = sumProd xs + sumProd ys := by
  simp [sumProd]

theorem sumWasted_append (xs ys : List Session) :
    sumWasted (xs ++ ys) = sumWasted xs + sumWasted ys := by
  simp [sumWasted]

theorem sumIdle_append (xs ys : List Session) :
    sumIdle (xs ++ ys) = sumIdle xs + sumIdle ys := by
  simp [sumIdle]

theorem sumNeutral_append (xs ys : List Session) :
    sumNeutral (xs ++ ys) = sumNeutral xs + sumNeutral ys := by
  simp [sumNeutral]

theorem foldl_overviewSessionStep (ss : List Session) :
    ∀ t : UserTotals,
      ss.foldl overviewSessionStep t
        = ⟨t.productive + sumProd ss, t.wasted + sumWasted ss,
           t.idle + sumIdle ss, t.neutral + sumNeutral ss,
           t.sessions + ss.length⟩ := by
  induction ss with
  | nil => intro t; simp [sumProd, sumWasted, sumIdle, sumNeutral]
  | cons s ss ih =>
    intro t
    simp only [List.foldl_cons, ih, overviewSessionStep, sumProd, sumWasted,
      sumIdle, sumNeutral, List.map_cons, List.sum_cons, List.length_cons,
      UserTotals.mk.injEq]
    exact ⟨by ring, by ring, by ring, by ring, by omega⟩

theorem overviewUserTotals_eq (dates : List DateEntry) :
    overviewUserTotals dates
      = ⟨sumProd (allSessions dates), sumWasted (allSessions dates),
         sumIdle (allSessions dates), sumNeutral (allSessions dates),
         (allSessions dates).length⟩ := by
  suffices h : ∀ t : UserTotals,
      dates.foldl (fun t e => (sessionsOf e).foldl overviewSessionStep t) t
        = ⟨t.productive + sumProd (allSessions dates),
           t.wasted + sumWasted (allSessions dates),
           t.idle + sumIdle (allSessions dates),
           t.neutral + sumNeutral (allSessions dates),
           t.sessions + (allSessions dates).length⟩ by
    have h0 := h ⟨0, 0, 0, 0, 0⟩
    simpa [overviewUserTotals] using h0
  induction dates with
  | nil =>
    intro t
    simp [allSessions, sumProd, sumWasted, sumIdle, sumNeutral]
  | cons e rest ih =>
    intro t
    rw [List.foldl_cons, ih, foldl_overviewSessionStep]
    simp only [allSessions, sumProd_append, sumWasted_append, sumIdle_append,
      sumNeutral_append, List.length_append, UserTotals.mk.injEq]
    exact ⟨by ring, by ring, by ring, by ring, by omega⟩

/-- C5: the Overview per-user loop (app.py lines 359-391) sums the four
category times across all sessions (absent fields counting 0 through
`.get(..., 0)`), and every emitted row's `total` (line 383) equals exactly
the sum of the four per-category sums. -/
theorem C5_aggregate_totals (dates : List DateEntry) (u : String)
    (r : UserRow) (hr : r ∈ overviewUserStats [(u, dates)]) :
    (overviewUserTotals dates).productive = sumProd (allSessions dates)
    ∧ (overviewUserTotals dates).wasted = sumWasted (allSessions dates)
    ∧ (overviewUserTotals dates).idle = sumIdle (allSessions dates)
    ∧ (overviewUserTotals dates).neutral = sumNeutral (allSessions dates)
    ∧ r.total = sumProd (allSessions dates) + sumWasted (allSessions dates)
        + sumIdle (allSessions dates) + sumNeutral (allSessions dates) := by
  refine ⟨by rw [overviewUserTotals_eq], by rw [overviewUserTotals_eq],
    by rw [overviewUserTotals_eq], by rw [overviewUserTotals_eq], ?_⟩
  simp only [overviewUserStats, List.foldl_cons, List.foldl_nil] at hr
  split_ifs at hr with hpos
  · simp only [List.nil_append, List.mem_singleton] at hr
    subst hr
    simp [mkUserRow, overviewUserTotals_eq]
  · simp at hr

/-- Date entries for the C5 witness: one normal session and one session with
every numeric field absent. -/
def c5Dates : List DateEntry :=
  [⟨some "2024-01-01",
    some [⟨some "s1", some "09:00:00", some "10:00:00", some 3600, some 1800,
           some 900, some 450, some 450, none, none⟩,
          ⟨none, none, none, none, none, none, none, none, none, none⟩]⟩]

/-- C5 witness: the theorem instantiated at a concrete user. -/
theorem C5_witness :
    mkUserRow "alice" (overviewUserTotals c5Dates)
        ∈ overviewUserStats [("alice", c5Dates)]
    ∧ ((overviewUserTotals c5Dates).productive = sumProd (allSessions c5Dates)
      ∧ (overviewUserTotals c5Dates).wasted = sumWasted (allSessions c5Dates)
      ∧ (overviewUserTotals c5Dates).idle = sumIdle (allSessions c5Dates)
      ∧ (overviewUserTotals c5Dates).neutral
          = sumNeutral (allSessions c5Dates)
      ∧ (mkUserRow "alice" (overviewUserTotals c5Dates)).total
          = sumProd (allSessions c5Dates) + sumWasted (allSessions c5Dates)
            + sumIdle (allSessions c5Dates)
            + sumNeutral (allSessions c5Dates)) :=
  ⟨by decide,
   C5_aggregate_totals c5Dates "alice"
     (mkUserRow "alice" (overviewUserTotals c5Dates)) (by decide)⟩

/-- C7: the Overview `user_stats` accumulation (app.py lines 349-385) emits
exactly one row per input user whose session count over the filtered date
entries is nonzero, in input order, and no row for a user with zero
sessions. -/
theorem C7_user_rollup_rows (users : List (String × List DateEntry)) :
    overviewUserStats users
      = (users.filter
          (fun u => decide ((overviewUserTotals u.2).sessions > 0))).map
          (fun u => mkUserRow u.1 (overviewUserTotals u.2)) := by
  suffices h : ∀ acc : List UserRow,
      users.foldl
        (fun acc u =>
          let t := overviewUserTotals u.2
          if t.sessions > 0 then acc ++ [mkUserRow u.1 t] else acc)
        acc
        = acc ++ (users.filter
            (fun u => decide ((overviewUserTotals u.2).sessions > 0))).map
            (fun u => mkUserRow u.1 (overviewUserTotals u.2)) by
    simpa [overviewUserStats] using h []
  induction users with
  | nil => intro acc; simp
  | cons u rest ih =>
    intro acc
    by_cases hpos : (overviewUserTotals u.2).sessions > 0
    · simp [hpos, ih, List.filter_cons]
    · simp [hpos, ih, List.filter_cons]

/-! ## C6: the date-range filter -/

theorem dateRangeGo_eq (sd ed : CalDate) :
    ∀ (ds acc : List DateEntry),
      (∀ e ∈ ds, (e.date.bind parseDate).isSome = true) →
      dateRangeGo sd ed acc ds = some (acc ++ ds.filter (inRange sd ed)) := by
  intro ds
  induction ds with
  | nil => intro acc _; simp [dateRangeGo]
  | cons e rest ih =>
    intro acc hp
    have he := hp e (by simp)
    cases hd : e.date with
    | none => rw [hd] at he; simp at he
    | some s =>
      cases hpd : parseDate s with
      | none => rw [hd] at he; simp [hpd] at he
      | some dobj =>
        simp only [dateRangeGo, hd, hpd]
        rw [ih _ (fun e2 he2 => hp e2 (by simp [he2]))]
        have hin : inRange sd ed e = (dateLe sd dobj && dateLe dobj ed) := by
          simp [inRange, hd, hpd]
        by_cases hc : (dateLe sd dobj && dateLe dobj ed) = true
        · simp [hc, hin, List.filter_cons, List.append_assoc]
        · simp only [Bool.not_eq_true] at hc
          simp [hc, hin, List.filter_cons]

/-- C6: `get_date_range_data` (app.py lines 130-143) returns exactly the
subsequence of date entries whose parsed date lies in `[sd, ed]` inclusive
(provided every entry's date string is present and parses, which is what the
unguarded `strptime` call needs to not raise), and returns `[]` when the
user document is missing or has no `dates` field. -/
theorem C6_date_range_filter (sd ed : CalDate) (doc : UserDoc) (u : String)
    (hp : ∀ e ∈ doc.dates.getD [], (e.date.bind parseDate).isSome = true) :
    get_date_range_data sd ed (some doc)
        = some ((doc.dates.getD []).filter (inRange sd ed))
    ∧ get_date_range_data sd ed (some ⟨u, none⟩) = some []
    ∧ get_date_range_data sd ed none = some [] := by
  refine ⟨?_, rfl, rfl⟩
  cases hd : doc.dates with
  | none => simp [get_date_range_data, hd]
  | some ds =>
    rw [hd] at hp
    simp only [Option.getD_some] at hp
    simp only [get_date_range_data, hd, Option.getD_some]
    exact (dateRangeGo_eq sd ed ds [] hp).trans (by simp)

/-- User document for the C6 witness: one in-range and one out-of-range
date entry. -/
def c6Doc : UserDoc :=
  ⟨"alice", some [⟨some "2024-01-05", some []⟩, ⟨some "2023-12-31", some []⟩]⟩

/-- C6 witness: the theorem instantiated at a concrete document; the filter
keeps exactly the in-range entry. -/
theorem C6_witness :
    (∀ e ∈ c6Doc.dates.getD [], (e.date.bind parseDate).isSome = true)
    ∧ (get_date_range_data ⟨2024, 1, 1⟩ ⟨2024, 1, 31⟩ (some c6Doc)
        = some ((c6Doc.dates.getD []).filter (inRange ⟨2024, 1, 1⟩ ⟨2024, 1, 31⟩))
      ∧ get_date_range_data ⟨2024, 1, 1⟩ ⟨2024, 1, 31⟩ (some ⟨"bob", none⟩)
          = some []
      ∧ get_date_range_data ⟨2024, 1, 1⟩ ⟨2024, 1, 31⟩ none = some [])
    ∧ (c6Doc.dates.getD []).filter (inRange ⟨2024, 1, 1⟩ ⟨2024, 1, 31⟩)
        = [⟨some "2024-01-05", some []⟩] :=
  ⟨by decide,
   C6_date_range_filter ⟨2024, 1, 1⟩ ⟨2024, 1, 31⟩ c6Doc "bob" (by decide),
   by decide⟩

/-! ## C2: aggregation error policy -/

theorem trendsEntryStep_isSome (acc : TrendsAcc) (e : DateEntry)
    (he : (e.date.bind parseDate).isSome = true) :
    (trendsEntryStep acc e).isSome = true := by
  cases hd : e.date with
  | none => rw [hd] at he; simp at he
  | some s =>
    cases hpd : parseDate s with
    | none => rw [hd] at he; simp [hpd] at he
    | some dobj => simp [trendsEntryStep, hd, hpd]

theorem trendsGo_isSome :
    ∀ (ds : List DateEntry) (acc : TrendsAcc),
      (∀ e ∈ ds, (e.date.bind parseDate).isSome = true) →
      (trendsGo acc ds).isSome = true := by
  intro ds
  induction ds with
  | nil => intro acc _; simp [trendsGo]
  | cons e rest ih =>
    intro acc hp
    have he := trendsEntryStep_isSome acc e (hp e (by simp))
    cases hs : trendsEntryStep acc e with
    | none => rw [hs] at he; simp at he
    | some acc2 =>
      simp only [trendsGo, hs]
      exact ih acc2 (fun e2 he2 => hp e2 (by simp [he2]))

/-- A user document holding a date entry whose date string does not parse:
reachable record contents on which the aggregation raises. -/
def c2BadDoc : UserDoc := ⟨"alice", some [⟨some "2024-13-01", some []⟩]⟩

/-- C2 counterexample: a date entry whose `date` string is not a valid
calendar date makes both `get_date_range_data` (app.py line 139, unguarded
`strptime`) and the Trends weekday derivation (app.py line 1123) raise
`ValueError` (modelled `none`) — so it is not true that every aggregation
never raises regardless of the record contents. -/
theorem C2_counterexample :
    get_date_range_data ⟨2024, 1, 1⟩ ⟨2024, 12, 31⟩ (some c2BadDoc) = none
    ∧ trendsAggregate [⟨some "2024-13-01", some []⟩] = none := by
  exact ⟨rfl, rfl⟩

/-! ## C8 / C9: Trends hourly, daily and weekday rollups -/

theorem sessionStep_hourly (w : String) (st : SessState) (s : Session)
    (h2 : Nat) :
    (sessionStep w st s).hourly h2
      = if hourOf s = some h2 then b5add (st.hourly h2) (sessB5 s)
        else st.hourly h2 := by
  cases hh : hourOf s with
  | none => simp [sessionStep, hh]
  | some h =>
    by_cases he : h2 = h
    · subst he; simp [sessionStep, hh]
    · simp [sessionStep, hh, he, fun h3 => (Ne.symm he : h ≠ h2) h3]

theorem sessionStep_dayP (w : String) (st : SessState) (s : Session) :
    (sessionStep w st s).dayP = st.dayP + s.productive_time.getD 0 := by
  cases hh : hourOf s <;> simp [sessionStep, hh]

theorem sessionStep_dayW (w : String) (st : SessState) (s : Session) :
    (sessionStep w st s).dayW = st.dayW + s.wasted_time.getD 0 := by
  cases hh : hourOf s <;> simp [sessionStep, hh]

theorem sessionStep_dayI (w : String) (st : SessState) (s : Session) :
    (sessionStep w st s).dayI = st.dayI + s.idle_time.getD 0 := by
  cases hh : hourOf s <;> simp [sessionStep, hh]

theorem sessionStep_dayN (w : String) (st : SessState) (s : Session) :
    (sessionStep w st s).dayN = st.dayN + s.neutral_time.getD 0 := by
  cases hh : hourOf s <;> simp [sessionStep, hh]

theorem sessionStep_weekly (w : String) (st : SessState) (s : Session)
    (w2 : String) :
    (sessionStep w st s).weekly w2
      = if w2 = w then b4add (st.weekly w2) (sessB4 s) else st.weekly w2 := by
  cases hh : hourOf s <;> simp [sessionStep, hh]

theorem foldl_sessionStep_hourly (w : String) :
    ∀ (ss : List Session) (st : SessState) (h2 : Nat),
      (ss.foldl (sessionStep w) st).hourly h2
        = b5add (st.hourly h2) (hourBucket h2 ss) := by
  intro ss
  induction ss with
  | nil => intro st h2; simp [hourBucket, b5add_zero]
  | cons s rest ih =>
    intro st h2
    rw [List.foldl_cons, ih, sessionStep_hourly]
    by_cases hh : hourOf s = some h2
    · simp [hourBucket, hh, b5add_assoc]
    · simp [hourBucket, hh]

theorem foldl_sessionStep_dayP (w : String) :
    ∀ (ss : List Session) (st : SessState),
      (ss.foldl (sessionStep w) st).dayP = st.dayP + sumProd ss := by
  intro ss
  induction ss with
  | nil => intro st; simp [sumProd]
  | cons s rest ih =>
    intro st
    rw [List.foldl_cons, ih, sessionStep_dayP]
    simp only [sumProd, List.map_cons, List.sum_cons]
    ring

theorem foldl_sessionStep_dayW (w : String) :
    ∀ (ss : List Session) (st : SessState),
      (ss.foldl (sessionStep w) st).dayW = st.dayW + sumWasted ss := by
  intro ss
  induction ss with
  | nil => intro st; simp [sumWasted]
  | cons s rest ih =>
    intro st
    rw [List.foldl_cons, ih, sessionStep_dayW]
    simp only [sumWasted, List.map_cons, List.sum_cons]
    ring

theorem foldl_sessionStep_dayI (w : String) :
    ∀ (ss : List Session) (st : SessState),
      (ss.foldl (sessionStep w) st).dayI = st.dayI + sumIdle ss := by
  intro ss
  induction ss with
  | nil => intro st; simp [sumIdle]
  | cons s rest ih =>
    intro st
    rw [List.foldl_cons, ih, sessionStep_dayI]
    simp only [sumIdle, List.map_cons, List.sum_cons]
    ring

theorem foldl_sessionStep_dayN (w : String) :
    ∀ (ss : List Session) (st : SessState),
      (ss.foldl (sessionStep w) st).dayN = st.dayN + sumNeutral ss := by
  intro ss
  induction ss with
  | nil => intro st; simp [sumNeutral]
  | cons s rest ih =>
    intro st
    rw [List.foldl_cons, ih, sessionStep_dayN]
    simp only [sumNeutral, List.map_cons, List.sum_cons]
    ring

/-- The componentwise sum of a session list's four category values (the
reference value of one weekday bucket). -/
def b4sum (ss : List Session) : Bucket4 :=
  ⟨sumProd ss, sumWasted ss, sumIdle ss, sumNeutral ss⟩

theorem b4add_zero (a : Bucket4) : b4add a b4zero = a := by
  simp [b4add, b4zero]

theorem b4sum_cons (s : Session) (rest : List Session) :
    b4sum (s :: rest) = b4add (sessB4 s) (b4sum rest) := by
  simp [b4sum, b4add, sessB4, sumProd, sumWasted, sumIdle, sumNeutral]

theorem foldl_sessionStep_weekly (w : String) :
    ∀ (ss : List Session) (st : SessState) (w2 : String),
      (ss.foldl (sessionStep w) st).weekly w2
        = if w2 = w then b4add (st.weekly w2) (b4sum ss)
          else st.weekly w2 := by
  intro ss
  induction ss with
  | nil =>
    intro st w2
    by_cases hw : w2 = w <;>
      simp [hw, b4sum, sumProd, sumWasted, sumIdle, sumNeutral, b4add]
  | cons s rest ih =>
    intro st w2
    rw [List.foldl_cons, ih, sessionStep_weekly]
    by_cases hw : w2 = w
    · simp [hw, b4sum_cons, b4add_assoc]
    · simp [hw]

theorem hourBucket_append (h2 : Nat) :
    ∀ xs ys : List Session,
      hourBucket h2 (xs ++ ys) = b5add (hourBucket h2 xs) (hourBucket h2 ys) := by
  intro xs ys
  induction xs with
  | nil => simp [hourBucket, b5zero_add]
  | cons s rest ih =>
    by_cases hh : hourOf s = some h2
    · simp [hourBucket, hh, ih, b5add_assoc]
    · simp [hourBucket, hh, ih]

theorem trendsGo_hourly :
    ∀ (ds : List DateEntry) (acc res : TrendsAcc),
      trendsGo acc ds = some res →
      ∀ h2, res.hourly h2
        = b5add (acc.hourly h2) (hourBucket h2 (allSessions ds)) := by
  intro ds
  induction ds with
  | nil =>
    intro acc res hres h2
    simp only [trendsGo, Option.some.injEq] at hres
    subst hres
    simp [allSessions, hourBucket, b5add_zero]
  | cons e rest ih =>
    intro acc res hres h2
    cases hs : trendsEntryStep acc e with
    | none => rw [trendsGo, hs] at hres; simp at hres
    | some acc2 =>
      rw [trendsGo, hs] at hres
      have h2eq : acc2.hourly h2
          = b5add (acc.hourly h2) (hourBucket h2 (sessionsOf e)) := by
        cases hd : e.date with
        | none => simp [trendsEntryStep, hd] at hs
        | some s2 =>
          cases hpd : parseDate s2 with
          | none => simp [trendsEntryStep, hd, hpd] at hs
          | some dobj =>
            simp only [trendsEntryStep, hd, hpd, Option.some.injEq] at hs
            subst hs
            exact foldl_sessionStep_hourly (weekdayName dobj) (sessionsOf e)
              ⟨acc.hourly, 0, 0, 0, 0, acc.weekly⟩ h2
      rw [ih acc2 res hres h2, h2eq]
      show _ = b5add (acc.hourly h2)
        (hourBucket h2 (sessionsOf e ++ allSessions rest))
      rw [hourBucket_append, b5add_assoc]

/-- C8: in the Trends hourly rollup (app.py lines 1131-1143), every bucket
equals the componentwise sum (plus session count) over exactly those
sessions whose `start_time` parses to that hour; sessions whose
`start_time` is missing or unparsable contribute to no bucket, and sessions
of any days sharing an hour are summed, not averaged. -/
theorem C8_hourly_rollup (dates : List DateEntry) (h2 : Nat)
    (hs : (trendsAggregate dates).isSome = true) :
    ((trendsAggregate dates).getD trendsInit).hourly h2
      = hourBucket h2 (allSessions dates) := by
  cases hres : trendsAggregate dates with
  | none => rw [hres] at hs; simp at hs
  | some res =>
    simp only [hres, Option.getD_some]
    rw [trendsGo_hourly dates trendsInit res hres h2]
    simp [trendsInit, b5zero_add]

/-- Date entries for the C8 witness: three sessions in hour 9 across two
days (values summed), one session with an unparsable `start_time` (skipped,
nothing raised). -/
def c8Dates : List DateEntry :=
  [⟨some "2024-01-01",
    some [⟨some "a", some "09:00:00", some "10:00:00", some 1000, some 100,
           some 200, some 300, some 400, none, none⟩,
          ⟨some "b", some "09:30:00", some "10:30:00", some 100, some 10,
           some 20, some 30, some 40, none, none⟩,
          ⟨some "c", some "banana", some "10:00:00", some 10, some 7,
           some 7, some 7, some 7, none, none⟩]⟩,
   ⟨some "2024-01-02",
    some [⟨some "d", some "9:15:00", some "10:15:00", some 10, some 1,
           some 2, some 3, some 4, none, none⟩]⟩]

/-- C8 witness: the theorem instantiated at concrete entries; bucket 9 sums
the three parsed hour-9 sessions and the unparsable one is skipped. -/
theorem C8_witness :
    (trendsAggregate c8Dates).isSome = true
    ∧ ((trendsAggregate c8Dates).getD trendsInit).hourly 9
        = hourBucket 9 (allSessions c8Dates)
    ∧ hourBucket 9 (allSessions c8Dates) = ⟨111, 222, 333, 444, 3⟩ :=
  ⟨by decide, C8_hourly_rollup c8Dates 9 (by decide), by decide⟩

/-- C9: in the Trends session loop (app.py lines 1131-1155), a session whose
`start_time` key is missing entirely is silently skipped by the hourly
rollup (its `session["start_time"]` KeyError is caught by the bare
`except`), while its four time values are still fully counted by the per-day
accumulators and the per-weekday bucket of the same pass. -/
theorem C9_missing_start_time (w w2 : String) (st : SessState)
    (pre post : List Session) (s : Session) (h2 : Nat)
    (hs : s.start_time = none) (hw : w2 ≠ w) :
    ((pre ++ s :: post).foldl (sessionStep w) st).hourly h2
        = ((pre ++ post).foldl (sessionStep w) st).hourly h2
    ∧ ((pre ++ s :: post).foldl (sessionStep w) st).dayP
        = ((pre ++ post).foldl (sessionStep w) st).dayP
          + s.productive_time.getD 0
    ∧ ((pre ++ s :: post).foldl (sessionStep w) st).dayW
        = ((pre ++ post).foldl (sessionStep w) st).dayW
          + s.wasted_time.getD 0
    ∧ ((pre ++ s :: post).foldl (sessionStep w) st).dayI
        = ((pre ++ post).foldl (sessionStep w) st).dayI
          + s.idle_time.getD 0
    ∧ ((pre ++ s :: post).foldl (sessionStep w) st).dayN
        = ((pre ++ post).foldl (sessionStep w) st).dayN
          + s.neutral_time.getD 0
    ∧ (((pre ++ s :: post).foldl (sessionStep w) st).weekly w).productive
        = (((pre ++ post).foldl (sessionStep w) st).weekly w).productive
          + s.productive_time.getD 0
    ∧ (((pre ++ s :: post).foldl (sessionStep w) st).weekly w).wasted
        = (((pre ++ post).foldl (sessionStep w) st).weekly w).wasted
          + s.wasted_time.getD 0
    ∧ (((pre ++ s :: post).foldl (sessionStep w) st).weekly w).idle
        = (((pre ++ post).foldl (sessionStep w) st).weekly w).idle
          + s.idle_time.getD 0
    ∧ (((pre ++ s :: post).foldl (sessionStep w) st).weekly w).neutral
        = (((pre ++ post).foldl (sessionStep w) st).weekly w).neutral
          + s.neutral_time.getD 0
    ∧ ((pre ++ s :: post).foldl (sessionStep w) st).weekly w2
        = ((pre ++ post).foldl (sessionStep w) st).weekly w2 := by
  have hOf : hourOf s = none := by simp [hourOf, hs]
  have hb : ∀ h3, hourBucket h3 (pre ++ s :: post)
      = hourBucket h3 (pre ++ post) := by
    intro h3
    rw [hourBucket_append, hourBucket_append]
    congr 1
    simp [hourBucket, hOf]
  refine ⟨?_, ?_, ?_, ?_, ?_, ?_, ?_, ?_, ?_, ?_⟩
  · rw [foldl_sessionStep_hourly, foldl_sessionStep_hourly, hb]
  · rw [foldl_sessionStep_dayP, foldl_sessionStep_dayP]
    simp [sumProd]
    ring
  · rw [foldl_sessionStep_dayW, foldl_sessionStep_dayW]
    simp [sumWasted]
    ring
  · rw [foldl_sessionStep_dayI, foldl_sessionStep_dayI]
    simp [sumIdle]
    ring
  · rw [foldl_sessionStep_dayN, foldl_sessionStep_dayN]
    simp [sumNeutral]
    ring
  · rw [foldl_sessionStep_weekly, foldl_sessionStep_weekly]
    simp [b4add, b4sum, sumProd]
    ring
  · rw [foldl_sessionStep_weekly, foldl_sessionStep_weekly]
    simp [b4add, b4sum, sumWasted]
    ring
  · rw [foldl_sessionStep_weekly, foldl_sessionStep_weekly]
    simp [b4add, b4sum, sumIdle]
    ring
  · rw [foldl_sessionStep_weekly, foldl_sessionStep_weekly]
    simp [b4add, b4sum, sumNeutral]
    ring
  · rw [foldl_sessionStep_weekly, foldl_sessionStep_weekly]
    simp [hw]

/-- The C9 witness session: no `start_time` key at all. -/
def c9Sess : Session :=
  ⟨some "x", none, some "10:00:00", some 110, some 11, some 22, some 33,
   some 44, none, none⟩

def c9Pre : List Session :=
  [⟨some "a", some "09:00:00", some "10:00:00", some 10, some 1, some 2,
    some 3, some 4, none, none⟩]

def c9St : SessState := ⟨fun _ => b5zero, 0, 0, 0, 0, fun _ => b4zero⟩

/-- C9 witness: the theorem instantiated at one keyless session following a
normal one. -/
theorem C9_witness :
    c9Sess.start_time = none
    ∧ "Tuesday" ≠ "Monday"
    ∧ (((c9Pre ++ c9Sess :: []).foldl (sessionStep "Monday") c9St).hourly 9
        = ((c9Pre ++ []).foldl (sessionStep "Monday") c9St).hourly 9
      ∧ ((c9Pre ++ c9Sess :: []).foldl (sessionStep "Monday") c9St).dayP
          = ((c9Pre ++ []).foldl (sessionStep "Monday") c9St).dayP
            + c9Sess.productive_time.getD 0
      ∧ ((c9Pre ++ c9Sess :: []).foldl (sessionStep "Monday") c9St).dayW
          = ((c9Pre ++ []).foldl (sessionStep "Monday") c9St).dayW
            + c9Sess.wasted_time.getD 0
      ∧ ((c9Pre ++ c9Sess :: []).foldl (sessionStep "Monday") c9St).dayI
          = ((c9Pre ++ []).foldl (sessionStep "Monday") c9St).dayI
            + c9Sess.idle_time.getD 0
      ∧ ((c9Pre ++ c9Sess :: []).foldl (sessionStep "Monday") c9St).dayN
          = ((c9Pre ++ []).foldl (sessionStep "Monday") c9St).dayN
            + c9Sess.neutral_time.getD 0
      ∧ (((c9Pre ++ c9Sess :: []).foldl (sessionStep "Monday") c9St).weekly
            "Monday").productive
          = (((c9Pre ++ []).foldl (sessionStep "Monday") c9St).weekly
              "Monday").productive + c9Sess.productive_time.getD 0
      ∧ (((c9Pre ++ c9Sess :: []).foldl (sessionStep "Monday") c9St).weekly
            "Monday").wasted
          = (((c9Pre ++ []).foldl (sessionStep "Monday") c9St).weekly
              "Monday").wasted + c9Sess.wasted_time.getD 0
      ∧ (((c9Pre ++ c9Sess :: []).foldl (sessionStep "Monday") c9St).weekly
            "Monday").idle
          = (((c9Pre ++ []).foldl (sessionStep "Monday") c9St).weekly
              "Monday").idle + c9Sess.idle_time.getD 0
      ∧ (((c9Pre ++ c9Sess :: []).foldl (sessionStep "Monday") c9St).weekly
            "Monday").neutral
          = (((c9Pre ++ []).foldl (sessionStep "Monday") c9St).weekly
              "Monday").neutral + c9Sess.neutral_time.getD 0
      ∧ ((c9Pre ++ c9Sess :: []).foldl (sessionStep "Monday") c9St).weekly
            "Tuesday"
          = ((c9Pre ++ []).foldl (sessionStep "Monday") c9St).weekly
              "Tuesday") :=
  ⟨rfl, by decide,
   C9_missing_start_time "Monday" "Tuesday" c9St c9Pre [] c9Sess 9 rfl
     (by decide)⟩

/-! ## C10: App & URL rollup -/

theorem updateApp_isSome (name : String) (f : AppAcc → Option AppAcc)
    (hf : ∀ x, (f x).isSome = true) :
    ∀ m, (updateApp name f m).isSome = true := by
  intro m
  induction m with
  | nil =>
    simp only [updateApp]
    cases hfx : f appAccZero with
    | none => have h := hf appAccZero; rw [hfx] at h; simp at h
    | some v => simp
  | cons na rest ih =>
    obtain ⟨n, a⟩ := na
    simp only [updateApp]
    by_cases hn : n = name
    · cases hfx : f a with
      | none => have h := hf a; rw [hfx] at h; simp at h
      | some v => simp [hn, hfx]
    · cases hu : updateApp name f rest with
      | none => rw [hu] at ih; simp at ih
      | some r => simp [hn, hu]

theorem appAcc_eq_of_fields (x y : AppAcc)
    (h1 : x.productive = y.productive) (h2 : x.wasted = y.wasted)
    (h3 : x.idle = y.idle) (h4 : x.neutral = y.neutral)
    (h5 : x.visits = y.visits) : x = y := by
  cases x; cases y; simp_all

theorem updateApp_lookup (name : String) (f : AppAcc → Option AppAcc) :
    ∀ (m m2 : List (String × AppAcc)), updateApp name f m = some m2 →
      ∃ v, f (lookupAcc m name) = some v
        ∧ ∀ a, lookupAcc m2 a = if a = name then v else lookupAcc m a := by
  intro m
  induction m with
  | nil =>
    intro m2 hm
    simp only [updateApp] at hm
    cases hfx : f appAccZero with
    | none => rw [hfx] at hm; simp at hm
    | some v =>
      rw [hfx] at hm
      simp only [Option.map_some', Option.some.injEq] at hm
      subst hm
      refine ⟨v, by simpa [lookupAcc] using hfx, ?_⟩
      intro a
      by_cases ha : a = name
      · subst ha; simp [lookupAcc]
      · have hna : ¬ name = a := fun h => ha (Eq.symm h)
        simp [lookupAcc, ha, hna]
  | cons na rest ih =>
    obtain ⟨n, b⟩ := na
    intro m2 hm
    simp only [updateApp] at hm
    by_cases hn : n = name
    · subst hn
      rw [if_pos rfl] at hm
      cases hfx : f b with
      | none => rw [hfx] at hm; simp at hm
      | some v =>
        rw [hfx] at hm
        simp only [Option.map_some', Option.some.injEq] at hm
        subst hm
        refine ⟨v, by simpa [lookupAcc] using hfx, ?_⟩
        intro a
        by_cases ha : a = n
        · subst ha; simp [lookupAcc]
        · have hna : ¬ n = a := fun h => ha (Eq.symm h)
          simp [lookupAcc, ha, hna]
    · rw [if_neg hn] at hm
      cases hu : updateApp name f rest with
      | none => rw [hu] at hm; simp at hm
      | some r =>
        rw [hu] at hm
        simp only [Option.map_some', Option.some.injEq] at hm
        subst hm
        obtain ⟨v, hv, hlook⟩ := ih r hu
        refine ⟨v, by simpa [lookupAcc, hn] using hv, ?_⟩
        intro a
        by_cases ha : a = name
        · subst ha
          simp [lookupAcc, hn, hlook]
        · by_cases hna : n = a
          · subst hna; simp [lookupAcc, hn]
          · simp [lookupAcc, hna, hlook, ha]

theorem appUsageGo_isSome :
    ∀ (entries : List (String × String × AppData))
      (m : List (String × AppAcc)),
      (∀ en ∈ entries, en.1 = "productive" ∨ en.1 = "wasted"
        ∨ en.1 = "idle" ∨ en.1 = "neutral") →
      (appUsageGo m entries).isSome = true := by
  intro entries
  induction entries with
  | nil => intro m _; simp [appUsageGo]
  | cons en rest ih =>
    intro m hcats
    obtain ⟨cat, n, ad⟩ := en
    have hcat := hcats (cat, n, ad) (by simp)
    have hf1 : ∀ x : AppAcc,
        (appAccAddCat x cat (ad.total_time.getD 0)).isSome = true := by
      intro x
      rcases hcat with rfl | rfl | rfl | rfl <;> simp [appAccAddCat]
    have hu1 := updateApp_isSome n _ hf1 m
    cases h1 : updateApp n
        (fun x => appAccAddCat x cat (ad.total_time.getD 0)) m with
    | none => rw [h1] at hu1; simp at hu1
    | some m1 =>
      have hu2 := updateApp_isSome n
        (fun x => some { x with visits := x.visits + visitsLen ad })
        (by intro x; simp) m1
      cases h2 : updateApp n
          (fun x => some { x with visits := x.visits + visitsLen ad }) m1 with
      | none => rw [h2] at hu2; simp at hu2
      | some m2 =>
        have hstep : appEntryStep m (cat, n, ad) = some m2 := by
          simp only [appEntryStep, h1, h2]
        rw [appUsageGo, hstep]
        exact ih m2 (fun e2 he2 => hcats e2 (by simp [he2]))

theorem appUsageGo_lookup :
    ∀ (entries : List (String × String × AppData))
      (m res : List (String × AppAcc)),
      (∀ en ∈ entries, en.1 = "productive" ∨ en.1 = "wasted"
        ∨ en.1 = "idle" ∨ en.1 = "neutral") →
      appUsageGo m entries = some res →
      ∀ a, lookupAcc res a
        = ⟨(lookupAcc m a).productive + catTimeSum a "productive" entries,
           (lookupAcc m a).wasted + catTimeSum a "wasted" entries,
           (lookupAcc m a).idle + catTimeSum a "idle" entries,
           (lookupAcc m a).neutral + catTimeSum a "neutral" entries,
           (lookupAcc m a).visits + visitsSum a entries⟩ := by
  intro entries
  induction entries with
  | nil =>
    intro m res _ hgo a
    simp only [appUsageGo, Option.some.injEq] at hgo
    subst hgo
    simp [catTimeSum, visitsSum]
  | cons en rest ih =>
    intro m res hcats hgo a
    obtain ⟨cat, n, ad⟩ := en
    have hcat := hcats (cat, n, ad) (by simp)
    cases hstep : appEntryStep m (cat, n, ad) with
    | none => rw [appUsageGo, hstep] at hgo; simp at hgo
    | some m2 =>
      rw [appUsageGo, hstep] at hgo
      simp only [appEntryStep] at hstep
      cases hu1 : updateApp n
          (fun x => appAccAddCat x cat (ad.total_time.getD 0)) m with
      | none => rw [hu1] at hstep; simp at hstep
      | some m1 =>
        rw [hu1] at hstep
        obtain ⟨v1, hv1, hl1⟩ := updateApp_lookup n _ m m1 hu1
        obtain ⟨v2, hv2, hl2⟩ := updateApp_lookup n _ m1 m2 hstep
        simp only [Option.some.injEq] at hv2
        rw [ih m2 res (fun e2 he2 => hcats e2 (by simp [he2])) hgo a]
        by_cases ha : a = n
        · subst ha
          rw [hl2 a, if_pos rfl, ← hv2, hl1 a, if_pos rfl]
          rcases hcat with rfl | rfl | rfl | rfl <;>
            simp [appAccAddCat] at hv1 <;>
            subst hv1 <;>
            (apply appAcc_eq_of_fields <;> simp [catTimeSum, visitsSum] <;>
              try ring)
        · have hna : ¬ n = a := fun h => ha (Eq.symm h)
          rw [hl2 a, if_neg ha, hl1 a, if_neg ha]
          simp [catTimeSum, visitsSum, hna]

theorem primaryCategory_mem (d : AppAcc) :
    primaryCategory d = "productive" ∨ primaryCategory d = "wasted"
    ∨ primaryCategory d = "idle" ∨ primaryCategory d = "neutral" := by
  simp only [primaryCategory, maxByFirst, List.foldl]
  split_ifs <;> simp

/-- Date entries whose only session records usage under the category key
`"gaming"`, outside the four fixed categories. -/
def c10BadDates : List DateEntry :=
  [⟨some "2024-01-01",
    some [⟨some "s1", some "09:00:00", some "10:00:00", some 100, some 0,
           some 0, some 0, some 0, none,
           some [("gaming", [("steam", ⟨some 100, some ["v1", "v2"]⟩)])]⟩]⟩]

/-- C10 counterexample: a `usage_breakdown` category key outside the four
fixed categories makes `app_usage[app_name][category] += ...` (app.py line
1426) raise `KeyError` — the rollup aborts (modelled `none`) and produces no
rows, so the entry's `len(visits)` is *not* accumulated into any
application's visit count, contradicting the claim that visits from every
category key are accumulated. -/
theorem C10_counterexample :
    appUsageRollup c10BadDates = none
    ∧ usageList ((appUsageRollup c10BadDates).getD []) = [] := ⟨rfl, rfl⟩

/-- C10 (amended): when every category key of every `usage_breakdown` is
among the four fixed categories, the rollup succeeds; each application's
visit count is then the sum of `len(visits)` over all its entries, its four
time fields are the per-category time sums, each row's reported
`total_time` is the sum of its four category times (so time under other
keys could never reach it), and the primary category is chosen from the
four fixed categories only.  A category key outside the four (other than
the literal key `"visits"`) instead raises `KeyError` and aborts the whole
rollup, accumulating nothing. -/
theorem C10_amended_app_rollup (dates : List DateEntry) (a : String)
    (r : UsageRow)
    (hcats : ∀ en ∈ appEntries dates, en.1 = "productive"
      ∨ en.1 = "wasted" ∨ en.1 = "idle" ∨ en.1 = "neutral")
    (hr : r ∈ usageList ((appUsageRollup dates).getD [])) :
    (appUsageRollup dates).isSome = true
    ∧ lookupAcc ((appUsageRollup dates).getD []) a
        = ⟨catTimeSum a "productive" (appEntries dates),
           catTimeSum a "wasted" (appEntries dates),
           catTimeSum a "idle" (appEntries dates),
           catTimeSum a "neutral" (appEntries dates),
           visitsSum a (appEntries dates)⟩
    ∧ r.total_time = r.productive + r.wasted + r.idle + r.neutral
    ∧ (r.category = "Productive" ∨ r.category = "Wasted"
       ∨ r.category = "Idle" ∨ r.category = "Neutral") := by
  have hsome := appUsageGo_isSome (appEntries dates) [] hcats
  cases hres : appUsageRollup dates with
  | none =>
    have : appUsageGo [] (appEntries dates) = none := hres
    rw [this] at hsome
    simp at hsome
  | some m =>
    have hm : appUsageGo [] (appEntries dates) = some m := hres
    refine ⟨by simp [hres], ?_, ?_⟩
    · simp only [Option.getD_some]
      rw [appUsageGo_lookup (appEntries dates) [] m hcats hm a]
      simp [lookupAcc, appAccZero]
    · rw [hres] at hr
      simp only [Option.getD_some, usageList, List.mem_map] at hr
      obtain ⟨⟨nm, d⟩, _, hrow⟩ := hr
      subst hrow
      refine ⟨rfl, ?_⟩
      have hc : (usageRow nm d).category = pyCapitalize (primaryCategory d) :=
        rfl
      rw [hc]
      rcases primaryCategory_mem d with h | h | h | h <;> rw [h] <;> decide

/-- Date entries for the C10 witness: one session with two applications
under two of the four fixed categories. -/
def c10GoodDates : List DateEntry :=
  [⟨some "2024-01-01",
    some [⟨some "s1", some "09:00:00", some "10:00:00", some 150, some 100,
           some 50, some 0, some 0, none,
           some [("productive", [("vscode", ⟨some 100, some ["a", "b"]⟩)]),
                 ("wasted", [("yt", ⟨some 50, some ["c"]⟩)])]⟩]⟩]

/-- C10 witness: the amended theorem instantiated at concrete entries; the
`vscode` accumulator holds its productive time and both visits. -/
theorem C10_witness :
    (∀ en ∈ appEntries c10GoodDates, en.1 = "productive"
      ∨ en.1 = "wasted" ∨ en.1 = "idle" ∨ en.1 = "neutral")
    ∧ usageRow "vscode" ⟨100, 0, 0, 0, 2⟩
        ∈ usageList ((appUsageRollup c10GoodDates).getD [])
    ∧ ((appUsageRollup c10GoodDates).isSome = true
      ∧ lookupAcc ((appUsageRollup c10GoodDates).getD []) "vscode"
          = ⟨catTimeSum "vscode" "productive" (appEntries c10GoodDates),
             catTimeSum "vscode" "wasted" (appEntries c10GoodDates),
             catTimeSum "vscode" "idle" (appEntries c10GoodDates),
             catTimeSum "vscode" "neutral" (appEntries c10GoodDates),
             visitsSum "vscode" (appEntries c10GoodDates)⟩
      ∧ (usageRow "vscode" ⟨100, 0, 0, 0, 2⟩).total_time
          = (usageRow "vscode" ⟨100, 0, 0, 0, 2⟩).productive
            + (usageRow "vscode" ⟨100, 0, 0, 0, 2⟩).wasted
            + (usageRow "vscode" ⟨100, 0, 0, 0, 2⟩).idle
            + (usageRow "vscode" ⟨100, 0, 0, 0, 2⟩).neutral
      ∧ ((usageRow "vscode" ⟨100, 0, 0, 0, 2⟩).category = "Productive"
        ∨ (usageRow "vscode" ⟨100, 0, 0, 0, 2⟩).category = "Wasted"
        ∨ (usageRow "vscode" ⟨100, 0, 0, 0, 2⟩).category = "Idle"
        ∨ (usageRow "vscode" ⟨100, 0, 0, 0, 2⟩).category = "Neutral")) :=
  ⟨by decide, by decide,
   C10_amended_app_rollup c10GoodDates "vscode"
     (usageRow "vscode" ⟨100, 0, 0, 0, 2⟩) (by decide) (by decide)⟩

/-! ## C2 (amended): no aggregation pass raises on well-formed keys -/

theorem appEntries_filter_subset (p : DateEntry → Bool) :
    ∀ (ds : List DateEntry) (en : String × String × AppData),
      en ∈ appEntries (ds.filter p) → en ∈ appEntries ds := by
  intro ds
  induction ds with
  | nil => intro en h; simp [appEntries] at h
  | cons e rest ih =>
    intro en h
    rw [List.filter_cons] at h
    rw [appEntries]
    by_cases hp : p e = true
    · rw [if_pos hp, appEntries] at h
      rcases List.mem_append.mp h with h1 | h2
      · exact List.mem_append.mpr (Or.inl h1)
      · exact List.mem_append.mpr (Or.inr (ih en h2))
    · rw [if_neg hp] at h
      exact List.mem_append.mpr (Or.inr (ih en h))

/-- C2 (amended): every aggregation treats missing numeric fields as 0
(through `.get(..., 0)`) and the missing nested structures (`sessions`,
`usage_breakdown`, `dates`) as empty; the passes that contain a raising
operation — the date-range filter, the Trends pass and the App & URL
rollup — all succeed provided every date entry's `date` string is present
and parses as a calendar date and every `usage_breakdown` category key is
among the four fixed categories.  A missing or unparsable date string makes
the date-range filter and the Trends pass raise, and a category key outside
the four (other than the accumulator's literal `"visits"` key) makes the
App & URL rollup raise `KeyError`; the remaining aggregations perform only
defaulted accesses and contain no raising operation. -/
theorem C2_amended_no_raise (sd ed : CalDate) (doc : UserDoc) (u : String)
    (hp : ∀ e ∈ doc.dates.getD [], (e.date.bind parseDate).isSome = true)
    (hcats : ∀ en ∈ appEntries (doc.dates.getD []), en.1 = "productive"
      ∨ en.1 = "wasted" ∨ en.1 = "idle" ∨ en.1 = "neutral") :
    (get_date_range_data sd ed (some doc)).isSome = true
    ∧ (trendsAggregate
        ((get_date_range_data sd ed (some doc)).getD [])).isSome = true
    ∧ (appUsageRollup
        ((get_date_range_data sd ed (some doc)).getD [])).isSome = true
    ∧ get_date_range_data sd ed (some ⟨u, none⟩) = some []
    ∧ get_date_range_data sd ed none = some [] := by
  cases hd : doc.dates with
  | none =>
    refine ⟨?_, ?_, ?_, rfl, rfl⟩ <;>
      simp [get_date_range_data, hd, trendsAggregate, trendsGo,
        appUsageRollup, appEntries, appUsageGo]
  | some ds =>
    rw [hd] at hp hcats
    simp only [Option.getD_some] at hp hcats
    have heq : get_date_range_data sd ed (some doc)
        = some (ds.filter (inRange sd ed)) := by
      simp only [get_date_range_data, hd]
      exact (dateRangeGo_eq sd ed ds [] hp).trans (by simp)
    refine ⟨by simp [heq], ?_, ?_, rfl, rfl⟩
    · rw [heq]
      simp only [Option.getD_some]
      exact trendsGo_isSome (ds.filter (inRange sd ed)) trendsInit
        (fun e he => hp e (List.mem_of_mem_filter he))
    · rw [heq]
      simp only [Option.getD_some]
      exact appUsageGo_isSome (appEntries (ds.filter (inRange sd ed))) []
        (fun en hen =>
          hcats en (appEntries_filter_subset (inRange sd ed) ds en hen))

/-- A well-formed document for the C2 witness: one session with every field
absent, one with a `usage_breakdown` under a fixed category, and a date
entry with no sessions — nothing raises. -/
def c2GoodDoc : UserDoc :=
  ⟨"alice", some
    [⟨some "2024-01-05",
      some [⟨none, none, none, none, none, none, none, none, none, none⟩,
            ⟨some "s2", some "09:00:00", some "10:00:00", some 60, some 60,
             some 0, some 0, some 0, none,
             some [("productive", [("editor", ⟨some 60, some ["v"]⟩)])]⟩]⟩,
     ⟨some "2024-01-06", none⟩]⟩

/-- C2 witness: the amended theorem instantiated at `c2GoodDoc` — the
date-range filter, the Trends pass and the App & URL rollup all succeed. -/
theorem C2_witness :
    (∀ e ∈ c2GoodDoc.dates.getD [], (e.date.bind parseDate).isSome = true)
    ∧ (∀ en ∈ appEntries (c2GoodDoc.dates.getD []), en.1 = "productive"
        ∨ en.1 = "wasted" ∨ en.1 = "idle" ∨ en.1 = "neutral")
    ∧ ((get_date_range_data ⟨2024, 1, 1⟩ ⟨2024, 1, 31⟩
          (some c2GoodDoc)).isSome = true
      ∧ (trendsAggregate ((get_date_range_data ⟨2024, 1, 1⟩ ⟨2024, 1, 31⟩
          (some c2GoodDoc)).getD [])).isSome = true
      ∧ (appUsageRollup ((get_date_range_data ⟨2024, 1, 1⟩ ⟨2024, 1, 31⟩
          (some c2GoodDoc)).getD [])).isSome = true
      ∧ get_date_range_data ⟨2024, 1, 1⟩ ⟨2024, 1, 31⟩ (some ⟨"bob", none⟩)
          = some []
      ∧ get_date_range_data ⟨2024, 1, 1⟩ ⟨2024, 1, 31⟩ none = some []) :=
  ⟨by decide, by decide,
   C2_amended_no_raise ⟨2024, 1, 1⟩ ⟨2024, 1, 31⟩ c2GoodDoc "bob" (by decide)
     (by decide)⟩
